import Mathlib

/-!
# Verification of the aegis-ai-core chain monitor, signer, and state store

Shallow embedding of the parts of `aegis-ai-core` that the verified
properties are about:

* `server/worker.py`  — the chain-monitor tick (`tick_chain`), modelled as a
  pure function from an observed chain environment to the list of external
  effects (RPC reads, oracle calls, signed chain writes) and the sequence of
  cursor values it persists;
* `server/eth.py`     — transaction building (legacy vs EIP-1559 fee
  strategy) and submission with ambiguous-failure recovery;
* `server/main.py`    — the precheck fail-open policy and
  `_verdict_from_label`;
* `server/state.py`   — loading of the persisted watchlist / cursor JSON
  documents.

Machine integers are Python ints (unbounded), so they are modelled as `Int`.
Fallible calls are modelled with `Except`/`Option`: an `Except.error` stands
for a raised Python exception, `Option.none` for a JSON-RPC `null` result.
-/

/-- Python `str.lower()` (ASCII case mapping, as used on hex addresses). -/
def pyLower (s : String) : String := ⟨s.data.map Char.toLower⟩

/-- Python `str.upper()` (ASCII case mapping, as used on verdict labels). -/
def pyUpper (s : String) : String := ⟨s.data.map Char.toUpper⟩

/-- Python `s or d` on an optional string (`None` and `""` are falsy):
used for `str(audit.get("label") or "UNSAFE")` in `worker.py`. -/
def pyOrStr (v : Option String) (d : String) : String :=
  match v with
  | none => d
  | some s => if s = "" then d else s

/-! ## Chain-monitor worker (`server/worker.py`) -/

/-- `server/state.py` `WatchItem` (wallet, startBlock, addedAt). -/
structure WatchItem where
  wallet : String
  startBlock : Int
  addedAt : String
deriving Repr, DecidableEq

/-- The two fields of a block transaction object that `tick_chain` reads:
`tx.get("from")` and `tx.get("hash")`.  `none` models a missing key; the
remaining fields (`to`, `value`, `input`, ...) only flow into the oracle
input and never influence control flow. -/
structure TxJson where
  sender : Option String
  hash : Option String
deriving Repr, DecidableEq

/-- The one field of the oracle's verdict dict that `tick_chain` branches
on: `audit.get("label")` (`none` = key missing). -/
structure Verdict where
  label : Option String
deriving Repr, DecidableEq

/-- Externally observable effects of one tick, in program order.
`oracleCall h failed` records an `audit_tx_postaudit` invocation for the
transaction with hash `h` (`failed = true` when it raised);
`freezeWrite` / `setNoteWrite` record the signed guard writes with their
success flag (`false` = the write raised and was caught + logged). -/
inductive Ev where
  | blockFetch (bn : Int)
  | noteRead (h : String)
  | receiptFetch (h : String)
  | implRead (walletLower : String)
  | oracleCall (h : String) (failed : Bool)
  | freezeWrite (h : String) (ok : Bool)
  | setNoteWrite (h : String) (ok : Bool)
deriving Repr, DecidableEq

/-- The chain/node/oracle state one tick observes, keyed by transaction
hash where the Python code keys RPC calls by hash.
`note h` is `guard.get_tx_note(wallet, h).updated_at` (`error` = the
`eth_call` raised, e.g. wallet not delegated); `receipt h = none` means
`eth_getTransactionReceipt` returned null; `audit h` is the oracle outcome;
`freezeOk`/`setNoteOk` tell whether the corresponding signed write
succeeds. -/
structure ChainEnv where
  latest : Int
  conf : Int
  blocks : Int → List TxJson
  note : String → Except Unit Int
  receipt : String → Option Unit
  audit : String → Except String Verdict
  freezeOk : String → Bool
  setNoteOk : String → Bool

/-- What `tick_chain` decides to do with one transaction of a block
(worker.py lines 119-148): skip it silently, skip it because an on-chain
note already exists, halt the block (receipt unavailable), or audit it. -/
inductive TxAction where
  | skip
  | skipNoted (h : String)
  | halt (h : String)
  | auditTx (wallet h : String)
deriving Repr, DecidableEq

/-- The watched-wallet dict `{x.wallet.lower(): x.startBlock for x in items}`
(worker.py line 97); a later item for the same lowercased wallet overwrites
an earlier one, hence the reversed search. -/
def watchedLookup (items : List WatchItem) (k : String) : Option Int :=
  (items.reverse.find? (fun x => pyLower x.wallet = k)).map (·.startBlock)

/-- Control-flow classification of one transaction, mirroring worker.py
lines 119-148 in order: empty/missing sender → skip; sender not watched or
block before its startBlock → skip; missing/empty hash → skip; note read
succeeding with `updated_at > 0` → skip (idempotent no-op); note read
raising falls through; missing receipt → halt the block; otherwise audit. -/
def classifyTx (env : ChainEnv) (watched : String → Option Int) (bn : Int)
    (tx : TxJson) : TxAction :=
  let txFrom := pyLower (tx.sender.getD "")
  if txFrom = "" then .skip
  else
    match watched txFrom with
    | none => .skip
    | some startBlock =>
      if bn < startBlock then .skip
      else
        match tx.hash with
        | none => .skip
        | some h =>
          if h = "" then .skip
          else
            let wallet := tx.sender.getD ""
            match env.note h with
            | .ok u => if u > 0 then .skipNoted h else
                if env.receipt h = none then .halt h else .auditTx wallet h
            | .error _ =>
                if env.receipt h = none then .halt h else .auditTx wallet h

/-- Effects emitted for one classified transaction (worker.py lines
134-228).  `cache` is the per-tick `impl_record_cache` key set (lowercased
wallets); the impl-record read (lines 150-173) is an unsigned `eth_call`
whose failure is caught, so only its occurrence is recorded.  On oracle
failure (lines 182-191) the worker substitutes a fail-closed verdict with
`label = "UNSAFE"`; the branch on
`str(audit.get("label") or "UNSAFE").upper()` then selects freeze-with-note
vs set-note, and a write failure is caught and logged (lines 214-226). -/
def txEvents (env : ChainEnv) (cache : List String) :
    TxAction → List Ev × List String
  | .skip => ([], cache)
  | .skipNoted h => ([Ev.noteRead h], cache)
  | .halt h => ([Ev.noteRead h, Ev.receiptFetch h], cache)
  | .auditTx wallet h =>
    let walletL := pyLower wallet
    let (implEvs, cache') :=
      if cache.contains walletL then ([], cache)
      else ([Ev.implRead walletL], walletL :: cache)
    let (oracleEv, verdict) :=
      match env.audit h with
      | .ok v => (Ev.oracleCall h false, v)
      | .error _ => (Ev.oracleCall h true, ({ label := some "UNSAFE" } : Verdict))
    let label := pyUpper (pyOrStr verdict.label "UNSAFE")
    let writeEv :=
      if label = "UNSAFE" then Ev.freezeWrite h (env.freezeOk h)
      else Ev.setNoteWrite h (env.setNoteOk h)
    ([Ev.noteRead h, Ev.receiptFetch h] ++ implEvs ++ [oracleEv, writeEv], cache')

/-- Whether the per-transaction loop continues after this action
(`break` on a missing receipt, worker.py lines 144-148). -/
def txCont : TxAction → Bool
  | .halt _ => false
  | _ => true

/-- One transaction of the loop body (worker.py lines 119-228):
emitted events, updated impl-record cache, and whether the loop goes on. -/
def processTx (env : ChainEnv) (watched : String → Option Int)
    (cache : List String) (bn : Int) (tx : TxJson) :
    List Ev × List String × Bool :=
  ((txEvents env cache (classifyTx env watched bn tx)).1,
   (txEvents env cache (classifyTx env watched bn tx)).2,
   txCont (classifyTx env watched bn tx))

/-- The `for tx in txs` loop with its mid-loop `break` (worker.py lines
119-148): final `Bool` is `block_complete`. -/
def processTxs (env : ChainEnv) (watched : String → Option Int) (bn : Int) :
    List TxJson → List String → List Ev × List String × Bool
  | [], cache => ([], cache, true)
  | tx :: rest, cache =>
    let r := processTx env watched cache bn tx
    if r.2.2 then
      let r' := processTxs env watched bn rest r.2.1
      (r.1 ++ r'.1, r'.2.1, r'.2.2)
    else (r.1, r.2.1, false)

/-- One block of the outer loop (worker.py lines 114-117): fetch the block
with full transaction bodies, then run the transaction loop. -/
def processBlock (env : ChainEnv) (watched : String → Option Int)
    (cache : List String) (bn : Int) : List Ev × List String × Bool :=
  (Ev.blockFetch bn :: (processTxs env watched bn (env.blocks bn) cache).1,
   (processTxs env watched bn (env.blocks bn) cache).2.1,
   (processTxs env watched bn (env.blocks bn) cache).2.2)

/-- Whether block `bn` would be fully processed this tick (the
`block_complete` flag); it does not depend on the impl-record cache, which
only affects read events, never control flow. -/
def blockComplete (env : ChainEnv) (watched : String → Option Int)
    (bn : Int) : Bool :=
  (processTxs env watched bn (env.blocks bn) []).2.2

/-- The block loop of worker.py lines 114-245: runs `fuel` consecutive
blocks starting at `start`; after each complete block the cursor is
persisted as that block number (line 245); an incomplete block stops the
tick (lines 230-242).  Returns the events and the persisted cursor values
in order. -/
def runBlocks (env : ChainEnv) (watched : String → Option Int) :
    Nat → Int → List String → List Ev × List Int
  | 0, _, _ => ([], [])
  | fuel + 1, bn, cache =>
    let r := processBlock env watched cache bn
    if r.2.2 then
      let rest := runBlocks env watched fuel (bn + 1) r.2.1
      (r.1 ++ rest.1, bn :: rest.2)
    else (r.1, [])

/-- `min(x.startBlock for x in items)` (worker.py line 90); only called on
a non-empty list. -/
def minStart : List WatchItem → Int
  | [] => 0
  | x :: xs => xs.foldl (fun m y => min m y.startBlock) x.startBlock

/-- Result of one tick: the emitted effects and every cursor value passed
to `set_cursor`, in order (the cursor-initialization write included). -/
structure TickResult where
  events : List Ev
  persisted : List Int
deriving Repr, DecidableEq

/-- `tick_chain` (worker.py lines 71-245) as a function of the observed
environment, the watchlist for this chain, and the stored cursor
(`none` = no cursor yet).  Mirrors the source order: empty watchlist →
return; `to_block = latest - conf`, negative → return; missing cursor
initialized to `max 0 (minStart - 1)` and persisted; `from_block` past
`to_block` → return; otherwise run the block loop. -/
def tick_chain (env : ChainEnv) (items : List WatchItem)
    (cursor0 : Option Int) : TickResult :=
  if items = [] then ⟨[], []⟩
  else if env.latest - env.conf < 0 then ⟨[], []⟩
  else
    let cursor :=
      match cursor0 with
      | some c => c
      | none => max 0 (minStart items - 1)
    let initPersist : List Int :=
      match cursor0 with
      | some _ => []
      | none => [max 0 (minStart items - 1)]
    if cursor + 1 > env.latest - env.conf then ⟨[], initPersist⟩
    else
      let r := runBlocks env (watchedLookup items)
        (env.latest - env.conf + 1 - (cursor + 1)).toNat (cursor + 1) []
      ⟨r.1, initPersist ++ r.2⟩

/-- `[start, start+1, ..., start+n-1]`: the cursor values a run of `n`
consecutive complete blocks persists. -/
def intRange (start : Int) : Nat → List Int
  | 0 => []
  | n + 1 => start :: intRange (start + 1) n

/-! ## Transaction signer (`server/eth.py`) -/

/-- `eth.py` `SentTx` dataclass. -/
structure SentTx where
  tx_hash : String
  from_address : String
  nonce : Int
deriving Repr, DecidableEq

/-- 1 gwei, the fixed minimum tip (`GWEI = 10**9` in eth.py). -/
def GWEI : Int := 10 ^ 9

/-- What one iteration of the ambiguous-submission recovery loop observes
(eth.py lines 73-81 / 169-177): `txByHash` models
`eth_get_transaction_by_hash(local_hash) is not None` (an `error` = the
call raised), `receiptFound` likewise for
`eth_get_transaction_receipt(local_hash)`. -/
structure AttemptView where
  txByHash : Except Unit Bool
  receiptFound : Except Unit Bool
deriving Repr

/-- Whether one recovery attempt finds the transaction: the
transaction-by-hash check runs first and short-circuits; only when it
returns null is the receipt checked; any raise inside the `try` is caught
and the attempt counts as not found. -/
def attemptFound (a : AttemptView) : Bool :=
  match a.txByHash with
  | .error _ => false
  | .ok true => true
  | .ok false =>
    match a.receiptFound with
    | .error _ => false
    | .ok r => r

/-- The `for _ in range(15)` recovery loop (eth.py lines 73-81): true iff
some attempt among the next `n`, starting at index `i`, finds the
transaction. -/
def findWithin (poll : Nat → AttemptView) : Nat → Nat → Bool
  | 0, _ => false
  | n + 1, i => attemptFound (poll i) || findWithin poll n (i + 1)

/-- The node/signing context a submission observes: `send` is the
`eth_send_raw_transaction` outcome (error = `JsonRpcError` with that
message), `localHash` the locally computed hash of the signed envelope,
`poll i` what recovery attempt `i` observes, and the fee/nonce fields the
RPC reads used to build the envelope (`baseFee = none` models both a
block without `baseFeePerGas` and a failing read, as `_latest_base_fee_wei`
returns None in both cases; likewise `prioSuggested` for
`_max_priority_fee_wei`). -/
structure EthEnv where
  nonce : Int
  fromAddr : String
  gasPrice : Int
  baseFee : Option Int
  prioSuggested : Option Int
  send : Except String String
  localHash : String
  poll : Nat → AttemptView

/-- The signed transaction envelope fields relevant to fee strategy:
the legacy dict (eth.py lines 55-63) has a `gasPrice` field and no
`maxFeePerGas`; the type-2 dict (lines 150-160) has `maxFeePerGas` and
`maxPriorityFeePerGas`.  Gas sizing (`max(est + 50000, int(est * 1.2))`)
is float-based and irrelevant to the verified claims, so it is omitted. -/
inductive BuiltTx where
  | legacy (nonce : Int) (gasPrice : Int)
  | eip1559 (nonce : Int) (maxFeePerGas : Int) (maxPriorityFeePerGas : Int)
deriving Repr, DecidableEq

/-- The shared submission tail of `sign_and_send_legacy` (eth.py lines
67-82) and `sign_and_send_eip1559` (lines 164-178), which are verbatim
copies of each other: on a send error, poll up to 15 times for the local
hash; if found, return success carrying the local hash; otherwise re-raise
the original error. -/
def submitRaw (env : EthEnv) : Except String SentTx :=
  match env.send with
  | .ok h => .ok ⟨h, env.fromAddr, env.nonce⟩
  | .error e =>
    if findWithin env.poll 15 0 then .ok ⟨env.localHash, env.fromAddr, env.nonce⟩
    else .error e

/-- Envelope built by `sign_and_send_legacy` (eth.py lines 44-63):
gas price from the override or `eth_gasPrice`. -/
def legacyTx (env : EthEnv) (gasPriceOverride : Option Int) : BuiltTx :=
  .legacy env.nonce (gasPriceOverride.getD env.gasPrice)

/-- Envelope built by `sign_and_send_eip1559` (eth.py lines 125-160):
priority fee from the override, else the suggested tip, else 1 gwei, then
floored at 1 gwei; base fee from the latest block with `eth_gasPrice` as
fallback; `maxFeePerGas` from the override, else `baseFee * 2 + prio`. -/
def eip1559Tx (env : EthEnv) (maxFeeOverride prioOverride : Option Int) : BuiltTx :=
  let prio0 := (prioOverride.getD (env.prioSuggested.getD GWEI))
  let prio := max prio0 GWEI
  let baseFee := env.baseFee.getD env.gasPrice
  let maxFee := maxFeeOverride.getD (baseFee * 2 + prio)
  .eip1559 env.nonce maxFee prio

/-- `sign_and_send_legacy` (eth.py lines 28-82): the built envelope plus
the submission outcome. -/
def sign_and_send_legacy (env : EthEnv) (gasPriceOverride : Option Int) :
    BuiltTx × Except String SentTx :=
  (legacyTx env gasPriceOverride, submitRaw env)

/-- `sign_and_send_eip1559` (eth.py lines 108-178). -/
def sign_and_send_eip1559 (env : EthEnv) (maxFeeOverride prioOverride : Option Int) :
    BuiltTx × Except String SentTx :=
  (eip1559Tx env maxFeeOverride prioOverride, submitRaw env)

/-- The common entry point `sign_and_send` (eth.py lines 181-214):
chain id 31337 → legacy (forwarding only the gas-price override); every
other chain id → EIP-1559 with no fee overrides. -/
def sign_and_send (env : EthEnv) (chainId : Int) (gasPriceOverride : Option Int) :
    BuiltTx × Except String SentTx :=
  if chainId = 31337 then sign_and_send_legacy env gasPriceOverride
  else sign_and_send_eip1559 env none none

/-! ## Orchestrator precheck and label mapping (`server/main.py`) -/

/-- The oracle verdict dict as `tx_precheck` consumes it: `label = none`
models a missing `"label"` key (line 368 uses `audit.get("label",
"UNSAFE")`, defaulting only when the key is absent); `confidence` is the
JSON number (exact rational, 0.0 in the fallback). -/
structure PrecheckVerdict where
  label : Option String
  confidence : Option Rat
  name : Option String
  summary : Option String
  reasons : List String
deriving Repr, DecidableEq

/-- The fields of `TxPrecheckResponse` the verified property mentions. -/
structure TxPrecheckResponse where
  allow : Bool
  audit : PrecheckVerdict
deriving Repr, DecidableEq

/-- `_verdict_from_label` (main.py lines 53-57): uppercase the label and
map exactly `"SAFE"` to 1 (Safe); every other label, the empty string
included, to 2 (Unsafe). -/
def _verdict_from_label (label : String) : Int :=
  if pyUpper label = "SAFE" then 1 else 2

/-- The oracle-call portion of `tx_precheck` (main.py lines 353-377):
on a raise the orchestrator substitutes the fail-open verdict
(`label="SAFE"`, `confidence=0.0`, a reason naming the failure) and the
allow recommendation is `upper(audit.get("label", "UNSAFE")) == "SAFE"`. -/
def tx_precheck (oracle : Except String PrecheckVerdict) : TxPrecheckResponse :=
  let audit :=
    match oracle with
    | .ok v => v
    | .error e =>
      { label := some "SAFE"
        confidence := some 0
        name := some "PrecheckError"
        summary := some "Precheck failed (LLM/service error). Allowing by policy."
        reasons := ["precheck error: " ++ e] }
  { allow := pyUpper (audit.label.getD "UNSAFE") = "SAFE"
    audit := audit }

/-! ## State store (`server/state.py`) -/

/-- A parsed JSON value (objects as association lists; parsed JSON objects
are assumed to have distinct keys, as `json.loads` keeps only the last
duplicate anyway). -/
inductive Json where
  | null
  | bool (b : Bool)
  | num (n : Int)
  | str (s : String)
  | arr (xs : List Json)
  | obj (kvs : List (String × Json))

/-- The state a load sees on disk: no file (`FileNotFoundError` path),
a file whose bytes are not valid JSON (`json.loads` raises
`JSONDecodeError`), or a file parsing to some JSON value. -/
inductive FileContent where
  | missing
  | malformed
  | wellFormed (j : Json)

/-- `_load_json` (state.py lines 17-21): only `FileNotFoundError` is
caught and mapped to the default; a parse failure propagates as a raised
exception (`Except.error`). -/
def _load_json (fs : FileContent) (default : Json) : Except Unit Json :=
  match fs with
  | .missing => .ok default
  | .malformed => .error ()
  | .wellFormed j => .ok j

/-- Python truthiness of a JSON-decoded value. -/
def pyTruthy : Json → Bool
  | .null => false
  | .bool b => b
  | .num n => n != 0
  | .str s => s != ""
  | .arr xs => !xs.isEmpty
  | .obj kvs => !kvs.isEmpty

/-- `d.get(k) or fallback`: missing key gives `None` (falsy), and any
falsy value is replaced by the fallback. -/
def jgetOr (kvs : List (String × Json)) (k : String) (fallback : Json) : Json :=
  match kvs.lookup k with
  | none => fallback
  | some v => if pyTruthy v then v else fallback

/-- Python `str()` of a JSON-decoded value.  The exact rendering of
non-string containers is irrelevant to every verified property (only
non-emptiness matters, which this preserves); strings pass through
unchanged as in Python. -/
def pyStr : Json → String
  | .null => "None"
  | .bool true => "True"
  | .bool false => "False"
  | .num n => toString n
  | .str s => s
  | .arr _ => "<list>"
  | .obj _ => "<dict>"

/-- Python `int()` of a JSON-decoded value: numbers pass through, booleans
coerce, numeric strings parse, anything else raises (`ValueError` /
`TypeError`). -/
def pyInt : Json → Except Unit Int
  | .num n => .ok n
  | .bool b => .ok (if b then 1 else 0)
  | .str s => match s.toInt? with
    | some n => .ok n
    | none => .error ()
  | _ => .error ()

/-- One watchlist entry parse (state.py lines 39-46): non-dict entries are
skipped; `wallet`/`addedAt` are `str(... or default)`, `startBlock` is
`int(... or 0)` which can raise; entries with an empty wallet or negative
startBlock are dropped. -/
def parseWatchEntry (j : Json) : Except Unit (Option WatchItem) :=
  match j with
  | .obj kvs => do
    let wallet := pyStr (jgetOr kvs "wallet" (.str ""))
    let start ← pyInt (jgetOr kvs "startBlock" (.num 0))
    let added := pyStr (jgetOr kvs "addedAt" (.str ""))
    if wallet ≠ "" ∧ start ≥ 0 then
      pure (some ⟨wallet, start, added⟩)
    else
      pure none
  | _ => .ok none

/-- `load_watchlist` (state.py lines 31-48): the loaded JSON must be a
dict to contribute anything; each chain key maps to its parsed entry list
(non-list values skipped). -/
def load_watchlist (fs : FileContent) :
    Except Unit (List (String × List WatchItem)) := do
  let raw ← _load_json fs (.obj [])
  match raw with
  | .obj kvs =>
    kvs.foldlM
      (fun out kv =>
        match kv.2 with
        | .arr its => do
          let parsed ← its.foldlM
            (fun acc it => do
              match ← parseWatchEntry it with
              | some w => pure (acc ++ [w])
              | none => pure acc)
            ([] : List WatchItem)
          pure (out ++ [(kv.1, parsed)])
        | _ => pure out)
      ([] : List (String × List WatchItem))
  | _ => pure []

/-- `server/state.py` `CursorState`. -/
structure CursorState where
  lastProcessedBlock : Int
  updatedAt : String
deriving Repr, DecidableEq

/-- `load_cursors` (state.py lines 92-103): the loaded JSON must be a
dict; non-dict values are skipped; `lastProcessedBlock` is `int(... or 0)`
(can raise), `updatedAt` is `str(... or "")`. -/
def load_cursors (fs : FileContent) :
    Except Unit (List (String × CursorState)) := do
  let raw ← _load_json fs (.obj [])
  match raw with
  | .obj kvs =>
    kvs.foldlM
      (fun out kv =>
        match kv.2 with
        | .obj vkvs => do
          let lastB ← pyInt (jgetOr vkvs "lastProcessedBlock" (.num 0))
          let upd := pyStr (jgetOr vkvs "updatedAt" (.str ""))
          pure (out ++ [(kv.1, ⟨lastB, upd⟩)])
        | _ => pure out)
      ([] : List (String × CursorState))
  | _ => pure []

/-! ## Concrete scenario inputs used by witnesses and counterexamples -/

/-- C1 watchlist: one watched wallet, startBlock 1. -/
def itemsC1 : List WatchItem := [⟨"0xaa", 1, ""⟩]

/-- C1 environment: block 1 holds one watched transaction with no prior
note and an available receipt; the oracle says SAFE; the set-note chain
write fails. -/
def envC1 : ChainEnv where
  latest := 1
  conf := 0
  blocks := fun bn => if bn = 1 then [⟨some "0xaa", some "0xh1"⟩] else []
  note := fun _ => .ok 0
  receipt := fun _ => some ()
  audit := fun _ => .ok ⟨some "SAFE"⟩
  freezeOk := fun _ => true
  setNoteOk := fun _ => false

/-- C2 watchlist. -/
def itemsC2 : List WatchItem := [⟨"0xbb", 1, ""⟩]

/-- C2 environment: the oracle call raises for every transaction; the
freeze write succeeds. -/
def envC2 : ChainEnv where
  latest := 1
  conf := 0
  blocks := fun bn => if bn = 1 then [⟨some "0xbb", some "0xh2"⟩] else []
  note := fun _ => .ok 0
  receipt := fun _ => some ()
  audit := fun _ => .error "oracle down"
  freezeOk := fun _ => true
  setNoteOk := fun _ => true

/-- C3 watchlist. -/
def itemsC3 : List WatchItem := [⟨"0xcc", 1, ""⟩]

/-- C3 first-tick environment: blocks 1 and 2 each hold a watched
transaction; the receipt of the one in block 1 is not yet available. -/
def envC3a : ChainEnv where
  latest := 2
  conf := 0
  blocks := fun bn =>
    if bn = 1 then [⟨some "0xcc", some "0xh3"⟩]
    else if bn = 2 then [⟨some "0xcc", some "0xh4"⟩] else []
  note := fun _ => .ok 0
  receipt := fun _ => none
  audit := fun _ => .ok ⟨some "SAFE"⟩
  freezeOk := fun _ => true
  setNoteOk := fun _ => true

/-- C3 second-tick environment: identical chain, receipts now available. -/
def envC3b : ChainEnv where
  latest := 2
  conf := 0
  blocks := fun bn =>
    if bn = 1 then [⟨some "0xcc", some "0xh3"⟩]
    else if bn = 2 then [⟨some "0xcc", some "0xh4"⟩] else []
  note := fun _ => .ok 0
  receipt := fun _ => some ()
  audit := fun _ => .ok ⟨some "SAFE"⟩
  freezeOk := fun _ => true
  setNoteOk := fun _ => true

/-- C4 watchlist: the only watched wallet starts far past the chain head. -/
def itemsC4 : List WatchItem := [⟨"0xdd", 1000, ""⟩]

/-- C4 environment: the chain head is at block 50. -/
def envC4 : ChainEnv where
  latest := 50
  conf := 0
  blocks := fun _ => []
  note := fun _ => .ok 0
  receipt := fun _ => some ()
  audit := fun _ => .ok ⟨some "SAFE"⟩
  freezeOk := fun _ => true
  setNoteOk := fun _ => true

/-- C5 watchlist. -/
def itemsC5 : List WatchItem := [⟨"0xee", 1, ""⟩]

/-- C5 environment: every transaction already has an on-chain note with
`updatedAt = 7 > 0`. -/
def envC5 : ChainEnv where
  latest := 2
  conf := 0
  blocks := fun bn =>
    if bn = 1 then [⟨some "0xee", some "0xh5"⟩]
    else if bn = 2 then [⟨some "0xee", some "0xh6"⟩] else []
  note := fun _ => .ok 7
  receipt := fun _ => none
  audit := fun _ => .error "must not be called"
  freezeOk := fun _ => true
  setNoteOk := fun _ => true

/-- C6 environment: send fails, and recovery attempt 3 sees the
transaction under the local hash. -/
def envC6 : EthEnv where
  nonce := 5
  fromAddr := "0xsender"
  gasPrice := 100
  baseFee := some 40
  prioSuggested := some 2
  send := .error "nonce too low"
  localHash := "0xlocal"
  poll := fun i => if i = 3 then ⟨.ok true, .ok false⟩ else ⟨.ok false, .ok false⟩

/-- C6 environment where no recovery attempt ever finds the transaction. -/
def envC6b : EthEnv where
  nonce := 5
  fromAddr := "0xsender"
  gasPrice := 100
  baseFee := some 40
  prioSuggested := some 2
  send := .error "nonce too low"
  localHash := "0xlocal"
  poll := fun _ => ⟨.ok false, .ok false⟩

/-- C7 environment: base fee present, suggested tip below 1 gwei. -/
def envC7 : EthEnv where
  nonce := 9
  fromAddr := "0xsender"
  gasPrice := 7
  baseFee := some 1000
  prioSuggested := some 3
  send := .ok "0xsent"
  localHash := "0xlocal"
  poll := fun _ => ⟨.ok false, .ok false⟩

/-- C10 watchlist. -/
def itemsC10 : List WatchItem := [⟨"0xff", 1, ""⟩]

/-- C10 environment: the oracle returns a parseable verdict whose label is
the empty string. -/
def envC10 : ChainEnv where
  latest := 1
  conf := 0
  blocks := fun bn => if bn = 1 then [⟨some "0xff", some "0xh7"⟩] else []
  note := fun _ => .ok 0
  receipt := fun _ => some ()
  audit := fun _ => .ok ⟨some ""⟩
  freezeOk := fun _ => true
  setNoteOk := fun _ => true

/-- C10 companion environment: the oracle returns a non-empty label that
is not "UNSAFE" under uppercasing. -/
def envC10b : ChainEnv where
  latest := 1
  conf := 0
  blocks := fun bn => if bn = 1 then [⟨some "0xff", some "0xh8"⟩] else []
  note := fun _ => .ok 0
  receipt := fun _ => some ()
  audit := fun _ => .ok ⟨some "Malformed"⟩
  freezeOk := fun _ => true
  setNoteOk := fun _ => true

/-! ## Helper lemmas about the worker loop -/

theorem mem_intRange (n : Nat) : ∀ (start x : Int),
    x ∈ intRange start n ↔ start ≤ x ∧ x < start + n := by
  induction n with
  | zero => intro start x; simp [intRange]
  | succ m ih =>
    intro start x
    simp only [intRange, List.mem_cons, ih]
    omega

theorem chain'_lt_intRange (n : Nat) : ∀ start : Int,
    List.Chain' (fun a b : Int => a < b) (intRange start n) := by
  induction n with
  | zero => intro start; simp [intRange]
  | succ m ih =>
    intro start
    cases m with
    | zero => simp [intRange]
    | succ k =>
      show List.Chain' (fun a b : Int => a < b)
        (start :: (start + 1) :: intRange (start + 1 + 1) k)
      rw [List.chain'_cons]
      exact ⟨by omega, ih (start + 1)⟩

/-- Block completeness does not depend on the impl-record cache: the cache
only decides whether an extra read event is emitted. -/
theorem processTxs_cont_indep (env : ChainEnv) (w : String → Option Int) (bn : Int) :
    ∀ (txs : List TxJson) (c1 c2 : List String),
      (processTxs env w bn txs c1).2.2 = (processTxs env w bn txs c2).2.2 := by
  intro txs
  induction txs with
  | nil => intro c1 c2; rfl
  | cons tx rest ih =>
    intro c1 c2
    simp only [processTxs, processTx]
    by_cases hc : txCont (classifyTx env w bn tx) = true
    · simp only [hc, if_true]
      exact ih _ _
    · simp only [Bool.not_eq_true] at hc
      simp [hc]

theorem processBlock_complete_indep (env : ChainEnv) (w : String → Option Int)
    (cache : List String) (bn : Int) :
    (processBlock env w cache bn).2.2 = blockComplete env w bn :=
  processTxs_cont_indep env w bn (env.blocks bn) cache []

/-- The persisted cursor values of a block run always form a contiguous
range starting at the first block. -/
theorem runBlocks_shape (env : ChainEnv) (w : String → Option Int) :
    ∀ (fuel : Nat) (start : Int) (cache : List String),
      ∃ k, k ≤ fuel ∧ (runBlocks env w fuel start cache).2 = intRange start k := by
  intro fuel
  induction fuel with
  | zero => intro start cache; exact ⟨0, Nat.le_refl 0, rfl⟩
  | succ n ih =>
    intro start cache
    simp only [runBlocks]
    by_cases hc : (processBlock env w cache start).2.2 = true
    · rw [if_pos hc]
      obtain ⟨k, hk, hp⟩ := ih (start + 1) (processBlock env w cache start).2.1
      refine ⟨k + 1, by omega, ?_⟩
      show start :: (runBlocks env w n (start + 1) _).2 = intRange start (k + 1)
      rw [hp]
      rfl
    · rw [if_neg hc]
      exact ⟨0, by omega, rfl⟩

/-- If every block of the window is complete, the run persists the whole
window. -/
theorem runBlocks_complete (env : ChainEnv) (w : String → Option Int) :
    ∀ (fuel : Nat) (start : Int) (cache : List String),
      (∀ k : Nat, k < fuel → blockComplete env w (start + k) = true) →
      (runBlocks env w fuel start cache).2 = intRange start fuel := by
  intro fuel
  induction fuel with
  | zero => intro start cache _; rfl
  | succ n ih =>
    intro start cache hall
    simp only [runBlocks]
    have hc : (processBlock env w cache start).2.2 = true := by
      rw [processBlock_complete_indep]
      simpa using hall 0 (Nat.succ_pos n)
    rw [if_pos hc]
    show start :: (runBlocks env w n (start + 1) _).2 = intRange start (n + 1)
    rw [ih (start + 1) _ ?_]
    · rfl
    · intro k hk
      have h1 := hall (k + 1) (by omega)
      have heq : start + ((k : Int) + 1) = start + 1 + k := by ring
      rw [show ((k + 1 : Nat) : Int) = (k : Int) + 1 from by push_cast; ring] at h1
      rwa [heq] at h1

/-- Characterization of the events one transaction can emit. -/
theorem mem_txEvents (env : ChainEnv) (cache : List String) (a : TxAction) (e : Ev)
    (hmem : e ∈ (txEvents env cache a).1) :
    (∃ h, a = .skipNoted h ∧ e = Ev.noteRead h) ∨
    (∃ h, a = .halt h ∧ (e = Ev.noteRead h ∨ e = Ev.receiptFetch h)) ∨
    (∃ wallet h, a = .auditTx wallet h ∧
      (e = Ev.noteRead h ∨ e = Ev.receiptFetch h ∨ e = Ev.implRead (pyLower wallet) ∨
       (∃ b, e = Ev.oracleCall h b) ∨ e = Ev.freezeWrite h (env.freezeOk h) ∨
       e = Ev.setNoteWrite h (env.setNoteOk h))) := by
  cases a with
  | skip => simp [txEvents] at hmem
  | skipNoted h =>
    left
    exact ⟨h, rfl, by simpa [txEvents] using hmem⟩
  | halt h =>
    right; left
    exact ⟨h, rfl, by simpa [txEvents] using hmem⟩
  | auditTx wallet h =>
    right; right
    refine ⟨wallet, h, rfl, ?_⟩
    by_cases hcc : cache.contains (pyLower wallet) <;>
      cases ha : env.audit h <;>
        simp only [txEvents, ha, hcc, if_true, if_false, ite_true, ite_false,
          List.cons_append, List.nil_append, List.mem_cons, List.mem_append,
          List.mem_singleton] at hmem <;>
          split_ifs at hmem <;> aesop

/-- Every event of the transaction loop comes from some transaction of the
list, and that transaction's whole event list is included in the loop's
events. -/
theorem processTxs_mem (env : ChainEnv) (w : String → Option Int) (bn : Int) :
    ∀ (txs : List TxJson) (cache : List String) (e : Ev),
      e ∈ (processTxs env w bn txs cache).1 →
      ∃ tx, tx ∈ txs ∧ ∃ cache',
        e ∈ (txEvents env cache' (classifyTx env w bn tx)).1 ∧
        ∀ e', e' ∈ (txEvents env cache' (classifyTx env w bn tx)).1 →
          e' ∈ (processTxs env w bn txs cache).1 := by
  intro txs
  induction txs with
  | nil => intro cache e hmem; simp [processTxs] at hmem
  | cons tx rest ih =>
    intro cache e hmem
    simp only [processTxs, processTx] at hmem ⊢
    by_cases hc : txCont (classifyTx env w bn tx) = true
    · simp only [hc, if_true] at hmem ⊢
      rcases List.mem_append.mp hmem with hl | hr
      · exact ⟨tx, List.mem_cons_self tx rest, cache, hl,
          fun e' he' => List.mem_append.mpr (Or.inl he')⟩
      · obtain ⟨tx', htx', cache', hin, hsub⟩ := ih _ e hr
        exact ⟨tx', List.mem_cons_of_mem tx htx', cache', hin,
          fun e' he' => List.mem_append.mpr (Or.inr (hsub e' he'))⟩
    · simp only [Bool.not_eq_true] at hc
      simp only [hc, Bool.false_eq_true, if_false] at hmem ⊢
      exact ⟨tx, List.mem_cons_self tx rest, cache, hmem, fun e' he' => he'⟩

/-- Every event of a block is its fetch or an event of its transaction
loop. -/
theorem processBlock_mem (env : ChainEnv) (w : String → Option Int)
    (cache : List String) (bn : Int) (e : Ev)
    (hmem : e ∈ (processBlock env w cache bn).1) :
    e = Ev.blockFetch bn ∨ e ∈ (processTxs env w bn (env.blocks bn) cache).1 := by
  simpa [processBlock] using hmem

/-- Every event of a block run comes from one of the visited blocks, whose
whole event list is included. -/
theorem runBlocks_mem (env : ChainEnv) (w : String → Option Int) :
    ∀ (fuel : Nat) (start : Int) (cache : List String) (e : Ev),
      e ∈ (runBlocks env w fuel start cache).1 →
      ∃ (k : Nat) (cache' : List String), k < fuel ∧
        e ∈ (processBlock env w cache' (start + k)).1 ∧
        ∀ e', e' ∈ (processBlock env w cache' (start + k)).1 →
          e' ∈ (runBlocks env w fuel start cache).1 := by
  intro fuel
  induction fuel with
  | zero => intro start cache e hmem; simp [runBlocks] at hmem
  | succ n ih =>
    intro start cache e hmem
    simp only [runBlocks] at hmem ⊢
    by_cases hc : (processBlock env w cache start).2.2 = true
    · rw [if_pos hc] at hmem ⊢
      rcases List.mem_append.mp hmem with hl | hr
      · refine ⟨0, cache, Nat.succ_pos n, by simpa using hl, ?_⟩
        intro e' he'
        exact List.mem_append.mpr (Or.inl (by simpa using he'))
      · obtain ⟨k, cache', hk, hin, hsub⟩ := ih (start + 1) _ e hr
        have hcast : start + ((k + 1 : Nat) : Int) = start + 1 + k := by push_cast; ring
        refine ⟨k + 1, cache', by omega, ?_, ?_⟩
        · rwa [hcast]
        · intro e' he'
          rw [hcast] at he'
          exact List.mem_append.mpr (Or.inr (hsub e' he'))
    · rw [if_neg hc] at hmem ⊢
      exact ⟨0, cache, Nat.succ_pos n, by simpa using hmem, fun e' he' => by simpa using he'⟩

/-- The events of a tick are either empty or exactly those of one block
run starting from the cursor successor. -/
theorem tick_chain_events_eq (env : ChainEnv) (items : List WatchItem)
    (cursor0 : Option Int) :
    (tick_chain env items cursor0).events = [] ∨
    ∃ (fuel : Nat) (start : Int),
      (tick_chain env items cursor0).events
        = (runBlocks env (watchedLookup items) fuel start []).1 := by
  unfold tick_chain
  by_cases h1 : items = []
  · simp [h1]
  · rw [if_neg h1]
    by_cases h2 : env.latest - env.conf < 0
    · rw [if_pos h2]
      left; rfl
    · rw [if_neg h2]
      cases cursor0 with
      | some c =>
        by_cases h3 : c + 1 > env.latest - env.conf
        · simp only [h3, if_true]
          exact Or.inl trivial
        · simp only [h3, if_false]
          right; exact ⟨_, _, rfl⟩
      | none =>
        by_cases h3 : max 0 (minStart items - 1) + 1 > env.latest - env.conf
        · simp only [h3, if_true]
          exact Or.inl trivial
        · simp only [h3, if_false]
          right; exact ⟨_, _, rfl⟩

/-- The transaction loop never emits a block-fetch event. -/
theorem processTxs_no_blockFetch (env : ChainEnv) (w : String → Option Int)
    (bn : Int) (txs : List TxJson) (cache : List String) (bn' : Int)
    (hmem : Ev.blockFetch bn' ∈ (processTxs env w bn txs cache).1) : False := by
  obtain ⟨tx, _, cache', hin, _⟩ := processTxs_mem env w bn txs cache _ hmem
  rcases mem_txEvents env cache' _ _ hin with ⟨h, _, he⟩ | ⟨h, _, he | he⟩ |
    ⟨wallet, h, _, he | he | he | ⟨b, he⟩ | he | he⟩ <;> simp at he

/-- A block's events only mention its own block number in fetch events. -/
theorem processBlock_blockFetch_eq (env : ChainEnv) (w : String → Option Int)
    (cache : List String) (bn : Int) (bn' : Int)
    (hmem : Ev.blockFetch bn' ∈ (processBlock env w cache bn).1) : bn' = bn := by
  rcases processBlock_mem env w cache bn _ hmem with he | hin
  · injection he
  · exact absurd hin (fun hin => processTxs_no_blockFetch env w bn _ cache bn' hin)

/-- If the first `j` blocks of the window are complete and block
`start + j` is not, the run persists exactly the first `j` blocks and
fetches no block past `start + j`. -/
theorem runBlocks_halt (env : ChainEnv) (w : String → Option Int) :
    ∀ (j fuel : Nat) (start : Int) (cache : List String),
      j < fuel →
      (∀ k : Nat, k < j → blockComplete env w (start + k) = true) →
      blockComplete env w (start + j) = false →
      (runBlocks env w fuel start cache).2 = intRange start j ∧
      (∀ bn, Ev.blockFetch bn ∈ (runBlocks env w fuel start cache).1 →
        start ≤ bn ∧ bn ≤ start + j) := by
  intro j
  induction j with
  | zero =>
    intro fuel start cache hjf hpre hhalt
    cases fuel with
    | zero => omega
    | succ n =>
      simp only [runBlocks]
      have hc : (processBlock env w cache start).2.2 = false := by
        rw [processBlock_complete_indep]; simpa using hhalt
      rw [if_neg (by simp [hc])]
      refine ⟨rfl, ?_⟩
      intro bn hbn
      have := processBlock_blockFetch_eq env w cache start bn hbn
      subst this
      simp
  | succ m ih =>
    intro fuel start cache hjf hpre hhalt
    cases fuel with
    | zero => omega
    | succ n =>
      simp only [runBlocks]
      have hc : (processBlock env w cache start).2.2 = true := by
        rw [processBlock_complete_indep]
        simpa using hpre 0 (Nat.succ_pos m)
      rw [if_pos hc]
      have hpre' : ∀ k : Nat, k < m → blockComplete env w (start + 1 + k) = true := by
        intro k hk
        have h1 := hpre (k + 1) (by omega)
        rwa [show start + ((k + 1 : Nat) : Int) = start + 1 + k by push_cast; ring] at h1
      have hhalt' : blockComplete env w (start + 1 + m) = false := by
        rwa [show start + ((m + 1 : Nat) : Int) = start + 1 + m by push_cast; ring] at hhalt
      obtain ⟨hp, hf⟩ := ih n (start + 1) (processBlock env w cache start).2.1
        (by omega) hpre' hhalt'
      constructor
      · show start :: _ = _
        rw [hp]
        rfl
      · intro bn hbn
        rcases List.mem_append.mp hbn with hl | hr
        · have := processBlock_blockFetch_eq env w cache start bn hl
          subst this
          constructor
          · omega
          · have : (0 : Int) ≤ ((m + 1 : Nat) : Int) := by positivity
            omega
        · have hb := hf bn hr
          constructor
          · omega
          · have h2 := hb.2
            push_cast at h2 ⊢
            omega

/-- Unfolding of a tick with a stored cursor that has blocks to process. -/
theorem tick_chain_some_eq (env : ChainEnv) (items : List WatchItem) (c : Int)
    (h1 : items ≠ []) (h2 : ¬env.latest - env.conf < 0)
    (h3 : ¬c + 1 > env.latest - env.conf) :
    tick_chain env items (some c)
      = ⟨(runBlocks env (watchedLookup items)
            (env.latest - env.conf + 1 - (c + 1)).toNat (c + 1) []).1,
         (runBlocks env (watchedLookup items)
            (env.latest - env.conf + 1 - (c + 1)).toNat (c + 1) []).2⟩ := by
  unfold tick_chain
  rw [if_neg h1, if_neg h2]
  simp only [h3, if_false, List.nil_append]

/-- Unfolding of a tick with no stored cursor that has blocks to process:
the initialized cursor is persisted first. -/
theorem tick_chain_none_eq (env : ChainEnv) (items : List WatchItem)
    (h1 : items ≠ []) (h2 : ¬env.latest - env.conf < 0)
    (h3 : ¬max 0 (minStart items - 1) + 1 > env.latest - env.conf) :
    tick_chain env items none
      = ⟨(runBlocks env (watchedLookup items)
            (env.latest - env.conf + 1 - (max 0 (minStart items - 1) + 1)).toNat
            (max 0 (minStart items - 1) + 1) []).1,
         max 0 (minStart items - 1) ::
           (runBlocks env (watchedLookup items)
             (env.latest - env.conf + 1 - (max 0 (minStart items - 1) + 1)).toNat
             (max 0 (minStart items - 1) + 1) []).2⟩ := by
  unfold tick_chain
  rw [if_neg h1, if_neg h2]
  simp only [h3, if_false, List.singleton_append]

/-- Unfolding of a tick with no stored cursor whose initialized cursor is
already at or past the window end: only the initialization is persisted. -/
theorem tick_chain_none_early (env : ChainEnv) (items : List WatchItem)
    (h1 : items ≠ []) (h2 : ¬env.latest - env.conf < 0)
    (h3 : max 0 (minStart items - 1) + 1 > env.latest - env.conf) :
    tick_chain env items none = ⟨[], [max 0 (minStart items - 1)]⟩ := by
  unfold tick_chain
  rw [if_neg h1, if_neg h2]
  simp only [h3, if_true]

/-- The recovery loop finds the transaction iff some attempt in its window
does. -/
theorem findWithin_iff (poll : Nat → AttemptView) :
    ∀ (n i : Nat), findWithin poll n i = true ↔
      ∃ k, k < n ∧ attemptFound (poll (i + k)) = true := by
  intro n
  induction n with
  | zero => intro i; simp [findWithin]
  | succ m ih =>
    intro i
    simp only [findWithin, Bool.or_eq_true, ih (i + 1)]
    constructor
    · rintro (h | ⟨k, hk, hf⟩)
      · exact ⟨0, Nat.succ_pos m, by simpa using h⟩
      · exact ⟨k + 1, by omega, by rwa [show i + (k + 1) = i + 1 + k by omega]⟩
    · rintro ⟨k, hk, hf⟩
      cases k with
      | zero => left; simpa using hf
      | succ k' =>
        right
        exact ⟨k', by omega, by rwa [show i + 1 + k' = i + (k' + 1) by omega]⟩

/-- C6: when send-raw-transaction fails with an RPC error, the signer
polls a bounded 15 attempts for the locally computed hash; if any attempt
finds a transaction or receipt under it, submission succeeds carrying the
local hash; otherwise the original RPC error propagates. -/
theorem signer_ambiguous_submission_recovery (env : EthEnv) (e : String)
    (hsend : env.send = .error e) :
    ((∃ i, i < 15 ∧ attemptFound (env.poll i) = true) →
      submitRaw env = .ok ⟨env.localHash, env.fromAddr, env.nonce⟩)
    ∧ ((∀ i, i < 15 → attemptFound (env.poll i) = false) →
      submitRaw env = .error e) := by
  constructor
  · rintro ⟨i, hi, hf⟩
    have hfw : findWithin env.poll 15 0 = true :=
      (findWithin_iff env.poll 15 0).mpr ⟨i, hi, by simpa using hf⟩
    simp [submitRaw, hsend, hfw]
  · intro hall
    have hfw : findWithin env.poll 15 0 = false := by
      by_contra hne
      obtain ⟨k, hk, hf⟩ := (findWithin_iff env.poll 15 0).mp
        (Bool.not_eq_false _ ▸ Bool.of_not_eq_false hne)
      exact absurd hf (by simp [hall k hk])
    simp [submitRaw, hsend, hfw]

/-- Witness for C6: with the ambiguous-send environment the local hash is
returned; with the never-found environment the original error returns. -/
theorem signer_ambiguous_submission_recovery_witness :
    submitRaw envC6 = .ok ⟨"0xlocal", "0xsender", 5⟩
    ∧ submitRaw envC6b = .error "nonce too low" := by
  constructor
  · exact (signer_ambiguous_submission_recovery envC6 "nonce too low" rfl).1
      ⟨3, by omega, by decide⟩
  · exact (signer_ambiguous_submission_recovery envC6b "nonce too low" rfl).2
      (fun i _ => rfl)

/-- C7: through the common entry point, chain id 31337 always builds a
legacy envelope (which has no maxFeePerGas field), and any other chain id
always builds an EIP-1559 envelope with
`maxFeePerGas >= 2 * baseFee + priorityFee` (base fee falling back to the
gas price) and `priorityFee >= 1 gwei`. -/
theorem sign_and_send_fee_strategy (env : EthEnv) (chainId : Int)
    (gpo : Option Int) :
    (chainId = 31337 →
      (sign_and_send env chainId gpo).1
        = BuiltTx.legacy env.nonce (gpo.getD env.gasPrice))
    ∧ (chainId ≠ 31337 →
      ∃ maxFee prio,
        (sign_and_send env chainId gpo).1 = BuiltTx.eip1559 env.nonce maxFee prio
        ∧ 2 * (env.baseFee.getD env.gasPrice) + prio ≤ maxFee
        ∧ GWEI ≤ prio) := by
  constructor
  · intro h
    simp [sign_and_send, h, sign_and_send_legacy, legacyTx]
  · intro h
    refine ⟨(env.baseFee.getD env.gasPrice) * 2 + max (env.prioSuggested.getD GWEI) GWEI,
      max (env.prioSuggested.getD GWEI) GWEI, ?_, by omega, le_max_right _ _⟩
    simp [sign_and_send, h, sign_and_send_eip1559, eip1559Tx]

/-- Witness for C7 at a concrete environment and both chain-id classes. -/
theorem sign_and_send_fee_strategy_witness :
    (sign_and_send envC7 31337 none).1 = BuiltTx.legacy 9 7
    ∧ ∃ maxFee prio,
        (sign_and_send envC7 1 none).1 = BuiltTx.eip1559 9 maxFee prio
        ∧ 2 * 1000 + prio ≤ maxFee ∧ GWEI ≤ prio := by
  constructor
  · exact (sign_and_send_fee_strategy envC7 31337 none).1 rfl
  · exact (sign_and_send_fee_strategy envC7 1 none).2 (by decide)

/-- C8: when the oracle call raised by Precheck fails entirely, the
response's verdict is SAFE with confidence 0.0 and a reason naming the
failure, and the allow recommendation is true. -/
theorem precheck_fails_open (oracle : Except String PrecheckVerdict) (e : String)
    (h : oracle = .error e) :
    (tx_precheck oracle).audit.label = some "SAFE"
    ∧ (tx_precheck oracle).audit.confidence = some 0
    ∧ (tx_precheck oracle).audit.reasons = ["precheck error: " ++ e]
    ∧ (tx_precheck oracle).allow = true := by
  subst h
  refine ⟨rfl, rfl, rfl, ?_⟩
  show decide (pyUpper "SAFE" = "SAFE") = true
  decide

/-- Witness for C8 at a concrete oracle failure. -/
theorem precheck_fails_open_witness :
    (tx_precheck (.error "oracle unreachable")).audit.label = some "SAFE"
    ∧ (tx_precheck (.error "oracle unreachable")).audit.confidence = some 0
    ∧ (tx_precheck (.error "oracle unreachable")).audit.reasons
        = ["precheck error: oracle unreachable"]
    ∧ (tx_precheck (.error "oracle unreachable")).allow = true :=
  precheck_fails_open _ "oracle unreachable" rfl

/-- When this transaction's hash has a positive on-chain note, it is
skipped at the note check, before the receipt fetch. -/
theorem classifyTx_all_noted (env : ChainEnv) (w : String → Option Int)
    (bn : Int) (tx : TxJson)
    (hnote : ∀ h, tx.hash = some h → ∃ u, env.note h = .ok u ∧ 0 < u) :
    classifyTx env w bn tx = .skip ∨
    ∃ h, classifyTx env w bn tx = .skipNoted h := by
  simp only [classifyTx]
  by_cases h1 : pyLower (tx.sender.getD "") = ""
  · simp [h1]
  · simp only [h1, if_false]
    cases h2 : w (pyLower (tx.sender.getD "")) with
    | none => simp
    | some sb =>
      by_cases h3 : bn < sb
      · simp [h3]
      · simp only [h3, if_false]
        cases h4 : tx.hash with
        | none => simp
        | some h =>
          by_cases h5 : h = ""
          · simp [h5]
          · simp only [h5, if_false]
            obtain ⟨u, hu, hupos⟩ := hnote h h4
            rw [hu]
            simp only [hupos, if_true, ite_true]
            right
            exact ⟨h, by simp [hupos]⟩

/-- C5: replaying a tick over a range in which every transaction already
has an on-chain note with `updatedAt > 0` (and the note reads succeed)
performs no oracle call, no signed chain write, and no receipt fetch:
every transaction is skipped at the note check. -/
theorem tick_idempotent_no_reaudit (env : ChainEnv) (items : List WatchItem)
    (cursor0 : Option Int)
    (hnote : ∀ (bn : Int), ∀ tx ∈ env.blocks bn, ∀ h, tx.hash = some h →
      ∃ u, env.note h = .ok u ∧ 0 < u) :
    ∀ e ∈ (tick_chain env items cursor0).events,
      (∀ h b, e ≠ Ev.oracleCall h b) ∧ (∀ h b, e ≠ Ev.freezeWrite h b)
      ∧ (∀ h b, e ≠ Ev.setNoteWrite h b) ∧ (∀ h, e ≠ Ev.receiptFetch h) := by
  intro e he
  rcases tick_chain_events_eq env items cursor0 with hnil | ⟨fuel, start, heq⟩
  · rw [hnil] at he
    simp at he
  · rw [heq] at he
    obtain ⟨k, cache', _, hin, _⟩ :=
      runBlocks_mem env (watchedLookup items) fuel start [] e he
    rcases processBlock_mem env (watchedLookup items) cache' (start + k) e hin
      with rfl | hin'
    · exact ⟨fun h b => by simp, fun h b => by simp, fun h b => by simp,
        fun h => by simp⟩
    · obtain ⟨tx, htx, cache'', hin'', _⟩ :=
        processTxs_mem env (watchedLookup items) (start + k) _ cache' e hin'
      rcases classifyTx_all_noted env (watchedLookup items) (start + k) tx
        (fun h hh => hnote (start + k) tx htx h hh) with hc | ⟨h, hc⟩
      · rw [hc] at hin''
        simp [txEvents] at hin''
      · rw [hc] at hin''
        simp only [txEvents, List.mem_singleton] at hin''
        subst hin''
        exact ⟨fun h b => by simp, fun h b => by simp, fun h b => by simp,
          fun h => by simp⟩

/-- Witness for C5: in the all-noted environment the hypotheses hold, the
conclusion applies, and concretely the tick walks both blocks emitting
only block fetches and note reads while still advancing the cursor. -/
theorem tick_idempotent_no_reaudit_witness :
    (∀ (bn : Int), ∀ tx ∈ envC5.blocks bn, ∀ h, tx.hash = some h →
      ∃ u, envC5.note h = .ok u ∧ 0 < u)
    ∧ (∀ e ∈ (tick_chain envC5 itemsC5 (some 0)).events,
        (∀ h b, e ≠ Ev.oracleCall h b) ∧ (∀ h b, e ≠ Ev.freezeWrite h b)
        ∧ (∀ h b, e ≠ Ev.setNoteWrite h b) ∧ (∀ h, e ≠ Ev.receiptFetch h))
    ∧ tick_chain envC5 itemsC5 (some 0)
        = ⟨[.blockFetch 1, .noteRead "0xh5", .blockFetch 2, .noteRead "0xh6"],
           [1, 2]⟩ :=
  ⟨fun _ _ _ _ _ => ⟨7, rfl, by omega⟩,
   tick_idempotent_no_reaudit envC5 itemsC5 (some 0)
     (fun _ _ _ _ _ => ⟨7, rfl, by omega⟩),
   by decide⟩

/-- C1 (code bug): at the failing input — block 1 whose only relevant
transaction has no prior note, an available receipt, a SAFE verdict, and a
set-note chain write that fails — the tick still persists the cursor as 1,
past the block, leaving the transaction without a durable note and never
retried. -/
theorem tick_cursor_persisted_despite_failed_write :
    tick_chain envC1 itemsC1 (some 0)
      = ⟨[.blockFetch 1, .noteRead "0xh1", .receiptFetch "0xh1", .implRead "0xaa",
          .oracleCall "0xh1" false, .setNoteWrite "0xh1" false], [1]⟩
    ∧ Ev.setNoteWrite "0xh1" false ∈ (tick_chain envC1 itemsC1 (some 0)).events
    ∧ (1 : Int) ∈ (tick_chain envC1 itemsC1 (some 0)).persisted := by
  refine ⟨by decide, by decide, by decide⟩

/-- C3: when a visited block is incomplete (a watched transaction's
receipt was unavailable), the tick persists exactly the blocks before it,
fetches no block past it, and a subsequent tick whose blocks are all
complete persists through the window, advancing the cursor past the
previously stuck block. -/
theorem tick_receipt_unavailable_halts (env : ChainEnv) (items : List WatchItem)
    (c b : Int) (hitems : items ≠ []) (h0 : 0 ≤ env.latest - env.conf)
    (hcnn : 0 ≤ c) (hb1 : c + 1 ≤ b) (hb2 : b ≤ env.latest - env.conf)
    (hpre : ∀ bn, c + 1 ≤ bn → bn < b →
      blockComplete env (watchedLookup items) bn = true)
    (hhalt : blockComplete env (watchedLookup items) b = false) :
    ((tick_chain env items (some c)).persisted = intRange (c + 1) (b - (c + 1)).toNat
     ∧ ∀ bn, Ev.blockFetch bn ∈ (tick_chain env items (some c)).events →
         c + 1 ≤ bn ∧ bn ≤ b)
    ∧ ∀ env2 : ChainEnv,
        b ≤ env2.latest - env2.conf →
        (∀ bn, b ≤ bn → bn ≤ env2.latest - env2.conf →
          blockComplete env2 (watchedLookup items) bn = true) →
        (tick_chain env2 items (some (b - 1))).persisted
          = intRange b (env2.latest - env2.conf + 1 - b).toNat
        ∧ b ∈ (tick_chain env2 items (some (b - 1))).persisted := by
  constructor
  · rw [tick_chain_some_eq env items c hitems (by omega) (by omega)]
    have hjf : (b - (c + 1)).toNat < (env.latest - env.conf + 1 - (c + 1)).toNat := by
      omega
    have hpre' : ∀ k : Nat, k < (b - (c + 1)).toNat →
        blockComplete env (watchedLookup items) (c + 1 + k) = true := by
      intro k hk
      exact hpre _ (by omega) (by omega)
    have hhalt' : blockComplete env (watchedLookup items)
        (c + 1 + ((b - (c + 1)).toNat : Int)) = false := by
      have hcast : c + 1 + ((b - (c + 1)).toNat : Int) = b := by omega
      rwa [hcast]
    obtain ⟨hp, hf⟩ := runBlocks_halt env (watchedLookup items)
      (b - (c + 1)).toNat (env.latest - env.conf + 1 - (c + 1)).toNat
      (c + 1) [] hjf hpre' hhalt'
    refine ⟨hp, ?_⟩
    intro bn hbn
    have hb := hf bn hbn
    omega
  · intro env2 hb2' hall
    rw [tick_chain_some_eq env2 items (b - 1) hitems (by omega) (by omega)]
    have hcomp := runBlocks_complete env2 (watchedLookup items)
      (env2.latest - env2.conf + 1 - (b - 1 + 1)).toNat (b - 1 + 1) [] ?_
    · constructor
      · rw [hcomp]
        have : b - 1 + 1 = b := by ring
        rw [this]
      · show b ∈ (runBlocks env2 (watchedLookup items) _ (b - 1 + 1) []).2
        rw [hcomp, mem_intRange]
        omega
    · intro k hk
      have hcast : b - 1 + 1 + (k : Int) = b + k := by ring
      rw [hcast]
      exact hall _ (by omega) (by omega)

/-- Witness for C3 at the concrete stuck-then-recovered chain: the first
tick persists nothing and fetches only block 1; the second tick persists
blocks 1 and 2, advancing past the stuck block. -/
theorem tick_receipt_unavailable_halts_witness :
    itemsC3 ≠ []
    ∧ blockComplete envC3a (watchedLookup itemsC3) 1 = false
    ∧ (tick_chain envC3a itemsC3 (some 0)).persisted = intRange 1 0
    ∧ (tick_chain envC3b itemsC3 (some 0)).persisted = intRange 1 2
    ∧ (1 : Int) ∈ (tick_chain envC3b itemsC3 (some 0)).persisted := by
  have hvac : ∀ bn : Int, 0 + 1 ≤ bn → bn < 1 →
      blockComplete envC3a (watchedLookup itemsC3) bn = true :=
    fun bn h1 h2 => absurd (lt_of_le_of_lt h1 h2) (by omega)
  have h := tick_receipt_unavailable_halts envC3a itemsC3 0 1 (by decide)
    (by decide) (by omega) (by omega) (by decide) hvac (by decide)
  have h2 := h.2 envC3b (by decide) ?_
  · exact ⟨by decide, by decide, h.1.1, h2.1, h2.2⟩
  · intro bn hb1 hb2
    have : bn = 1 ∨ bn = 2 := by
      have : envC3b.latest - envC3b.conf = 2 := by decide
      omega
    rcases this with rfl | rfl
    · decide
    · decide

/-- C4 counterexample: on the tick that initializes a missing cursor, the
persisted cursor (minimum watched startBlock minus one, floored at 0) can
exceed `latestBlock - confirmations` as observed at that tick. -/
theorem tick_cursor_init_exceeds_bound :
    (tick_chain envC4 itemsC4 none).persisted = [999]
    ∧ envC4.latest - envC4.conf = 50
    ∧ ¬(999 : Int) ≤ 50 := by
  refine ⟨by decide, by decide, by decide⟩

/-- C4 amended: persisted cursor values are strictly increasing within a
tick (hence `lastProcessedBlock` is non-decreasing across ticks), every
cursor persisted by block processing is at most
`latestBlock - confirmations`, and the only exception is the
initialization write `max 0 (minStart - 1)` of a cursorless tick, which
may exceed that bound. -/
theorem tick_cursor_monotone_bounded (env : ChainEnv) (items : List WatchItem)
    (cursor0 : Option Int) :
    List.Chain' (fun a b : Int => a < b) (tick_chain env items cursor0).persisted
    ∧ (∀ c, cursor0 = some c → ∀ x ∈ (tick_chain env items cursor0).persisted,
        c < x ∧ x ≤ env.latest - env.conf)
    ∧ (cursor0 = none → ∀ x ∈ (tick_chain env items cursor0).persisted,
        x = max 0 (minStart items - 1)
        ∨ (max 0 (minStart items - 1) < x ∧ x ≤ env.latest - env.conf)) := by
  by_cases h1 : items = []
  · simp [tick_chain, h1]
  by_cases h2 : env.latest - env.conf < 0
  · have : tick_chain env items cursor0 = ⟨[], []⟩ := by
      unfold tick_chain
      rw [if_neg h1, if_pos h2]
    simp [this]
  cases cursor0 with
  | some c =>
    by_cases h3 : c + 1 > env.latest - env.conf
    · have : tick_chain env items (some c) = ⟨[], []⟩ := by
        unfold tick_chain
        rw [if_neg h1, if_neg h2]
        simp only [h3, if_true]
      simp [this]
    · rw [tick_chain_some_eq env items c h1 h2 h3]
      obtain ⟨k, hk, hp⟩ := runBlocks_shape env (watchedLookup items)
        (env.latest - env.conf + 1 - (c + 1)).toNat (c + 1) []
      refine ⟨?_, ?_, ?_⟩
      · show List.Chain' _ (runBlocks env (watchedLookup items) _ (c + 1) []).2
        rw [hp]
        exact chain'_lt_intRange k (c + 1)
      · intro c' hc' x hx
        injection hc' with hc'
        subst hc'
        rw [show ((⟨_, (runBlocks env (watchedLookup items)
          (env.latest - env.conf + 1 - (c + 1)).toNat (c + 1) []).2⟩ :
            TickResult)).persisted = (runBlocks env (watchedLookup items)
          (env.latest - env.conf + 1 - (c + 1)).toNat (c + 1) []).2 from rfl,
          hp, mem_intRange] at hx
        omega
      · intro habs
        exact absurd habs (by simp)
  | none =>
    by_cases h3 : max 0 (minStart items - 1) + 1 > env.latest - env.conf
    · rw [tick_chain_none_early env items h1 h2 h3]
      refine ⟨by simp, ?_, ?_⟩
      · intro c' hc'
        exact absurd hc' (by simp)
      · intro _ x hx
        simp only [List.mem_singleton] at hx
        exact Or.inl hx
    · rw [tick_chain_none_eq env items h1 h2 h3]
      obtain ⟨k, hk, hp⟩ := runBlocks_shape env (watchedLookup items)
        (env.latest - env.conf + 1 - (max 0 (minStart items - 1) + 1)).toNat
        (max 0 (minStart items - 1) + 1) []
      refine ⟨?_, ?_, ?_⟩
      · show List.Chain' _ (max 0 (minStart items - 1) ::
          (runBlocks env (watchedLookup items) _ (max 0 (minStart items - 1) + 1) []).2)
        rw [hp]
        cases k with
        | zero => simp [intRange]
        | succ m =>
          show List.Chain' (fun a b : Int => a < b)
            (max 0 (minStart items - 1) :: (max 0 (minStart items - 1) + 1) ::
              intRange (max 0 (minStart items - 1) + 1 + 1) m)
          rw [List.chain'_cons]
          exact ⟨by omega, chain'_lt_intRange (m + 1) _⟩
      · intro c' hc'
        exact absurd hc' (by simp)
      · intro _ x hx
        rcases List.mem_cons.mp hx with rfl | hx'
        · exact Or.inl rfl
        · right
          rw [hp, mem_intRange] at hx'
          omega

/-- Witness for C4 (amended) at the initializing counterexample input:
the lone persisted value is exactly the initialization write. -/
theorem tick_cursor_monotone_bounded_witness :
    List.Chain' (fun a b : Int => a < b) (tick_chain envC4 itemsC4 none).persisted
    ∧ (∀ x ∈ (tick_chain envC4 itemsC4 none).persisted,
        x = max 0 (minStart itemsC4 - 1)
        ∨ (max 0 (minStart itemsC4 - 1) < x ∧ x ≤ envC4.latest - envC4.conf)) :=
  ⟨(tick_cursor_monotone_bounded envC4 itemsC4 none).1,
   (tick_cursor_monotone_bounded envC4 itemsC4 none).2.2 rfl⟩

/-- When every receipt is available, no transaction halts its block. -/
theorem classifyTx_cont_of_receipt (env : ChainEnv) (w : String → Option Int)
    (bn : Int) (tx : TxJson) (hrec : ∀ h, env.receipt h = some ()) :
    txCont (classifyTx env w bn tx) = true := by
  simp only [classifyTx]
  by_cases h1 : pyLower (tx.sender.getD "") = ""
  · simp [h1, txCont]
  · simp only [h1, if_false]
    cases h2 : w (pyLower (tx.sender.getD "")) with
    | none => simp [txCont]
    | some sb =>
      by_cases h3 : bn < sb
      · simp [h3, txCont]
      · simp only [h3, if_false]
        cases h4 : tx.hash with
        | none => simp [txCont]
        | some h =>
          by_cases h5 : h = ""
          · simp [h5, txCont]
          · simp only [h5, if_false]
            have hr : env.receipt h = some () := hrec h
            cases h6 : env.note h with
            | ok u =>
              by_cases h7 : u > 0
              · simp [h7, txCont]
              · simp [h7, hr, txCont]
            | error e => simp [hr, txCont]

/-- With all receipts available, the transaction loop always reports the
block complete. -/
theorem processTxs_complete_of_receipt (env : ChainEnv) (w : String → Option Int)
    (bn : Int) (hrec : ∀ h, env.receipt h = some ()) :
    ∀ (txs : List TxJson) (cache : List String),
      (processTxs env w bn txs cache).2.2 = true := by
  intro txs
  induction txs with
  | nil => intro cache; rfl
  | cons tx rest ih =>
    intro cache
    simp only [processTxs, processTx]
    have hc := classifyTx_cont_of_receipt env w bn tx hrec
    simp only [hc, if_true]
    exact ih _

/-- Event-level facts for an audited transaction whose oracle call raised:
the substituted verdict is UNSAFE, so a freeze-with-note write is
attempted (and no set-note write), and the only oracle-call event recorded
is the failed one. -/
theorem txEvents_oracle_error_facts (env : ChainEnv) (cache : List String)
    (wallet h : String) (msg : String) (ha : env.audit h = .error msg) :
    Ev.freezeWrite h (env.freezeOk h) ∈ (txEvents env cache (.auditTx wallet h)).1
    ∧ Ev.oracleCall h true ∈ (txEvents env cache (.auditTx wallet h)).1
    ∧ (∀ h' b, Ev.setNoteWrite h' b ∉ (txEvents env cache (.auditTx wallet h)).1)
    ∧ (∀ h' b, Ev.oracleCall h' b ∈ (txEvents env cache (.auditTx wallet h)).1 →
        h' = h ∧ b = true) := by
  have hup : pyUpper (pyOrStr (some "UNSAFE") "UNSAFE") = "UNSAFE" := by decide
  by_cases hcc : pyLower wallet ∈ cache
  · refine ⟨by simp [txEvents, ha, hcc, hup], by simp [txEvents, ha, hcc, hup],
      ?_, ?_⟩
    · intro h' b
      simp [txEvents, ha, hcc, hup]
    · intro h' b hmem
      simp [txEvents, ha, hcc, hup] at hmem
      exact ⟨hmem.1, hmem.2⟩
  · refine ⟨by simp [txEvents, ha, hcc, hup], by simp [txEvents, ha, hcc, hup],
      ?_, ?_⟩
    · intro h' b
      simp [txEvents, ha, hcc, hup]
    · intro h' b hmem
      simp [txEvents, ha, hcc, hup] at hmem
      exact ⟨hmem.1, hmem.2⟩

/-- C2 counterexample: the oracle call for the block's only relevant
transaction raises, yet the tick writes an on-chain note — it freezes the
wallet with a fail-closed UNSAFE note — instead of leaving the note absent
for a later re-audit. -/
theorem tick_oracle_failure_writes_note :
    envC2.audit "0xh2" = .error "oracle down"
    ∧ tick_chain envC2 itemsC2 (some 0)
        = ⟨[.blockFetch 1, .noteRead "0xh2", .receiptFetch "0xh2", .implRead "0xbb",
            .oracleCall "0xh2" true, .freezeWrite "0xh2" true], [1]⟩
    ∧ Ev.freezeWrite "0xh2" true ∈ (tick_chain envC2 itemsC2 (some 0)).events :=
  ⟨rfl, by decide, by decide⟩

/-- C2 amended: when the oracle call raises for every transaction (and
receipts are available), the tick is not aborted — every block still
completes — no set-note write ever happens, every recorded oracle call is
the failed one, and every failed oracle call is followed by a
freeze-with-note write attempt for that transaction: the worker fails
closed and writes a note in the failing tick. -/
theorem tick_oracle_failure_fail_closed (env : ChainEnv) (items : List WatchItem)
    (cursor0 : Option Int)
    (hrec : ∀ h, env.receipt h = some ())
    (horacle : ∀ h, ∃ msg, env.audit h = .error msg) :
    (∀ (w : String → Option Int) (bn : Int), blockComplete env w bn = true)
    ∧ (∀ h b, Ev.setNoteWrite h b ∉ (tick_chain env items cursor0).events)
    ∧ (∀ h b, Ev.oracleCall h b ∈ (tick_chain env items cursor0).events → b = true)
    ∧ (∀ h, Ev.oracleCall h true ∈ (tick_chain env items cursor0).events →
        Ev.freezeWrite h (env.freezeOk h) ∈ (tick_chain env items cursor0).events) := by
  refine ⟨?_, ?_, ?_, ?_⟩
  · intro w bn
    exact processTxs_complete_of_receipt env w bn hrec _ _
  · intro h b hmem
    rcases tick_chain_events_eq env items cursor0 with hnil | ⟨fuel, start, heq⟩
    · rw [hnil] at hmem
      simp at hmem
    · rw [heq] at hmem
      obtain ⟨k, cache', _, hin, _⟩ :=
        runBlocks_mem env (watchedLookup items) fuel start [] _ hmem
      rcases processBlock_mem env (watchedLookup items) cache' (start + k) _ hin
        with habs | hin'
      · simp at habs
      · obtain ⟨tx, _, cache'', hin'', _⟩ :=
          processTxs_mem env (watchedLookup items) (start + k) _ cache' _ hin'
        cases hc : classifyTx env (watchedLookup items) (start + k) tx with
        | skip => rw [hc] at hin''; simp [txEvents] at hin''
        | skipNoted h' => rw [hc] at hin''; simp [txEvents] at hin''
        | halt h' => rw [hc] at hin''; simp [txEvents] at hin''
        | auditTx wallet h' =>
          rw [hc] at hin''
          obtain ⟨msg, ha⟩ := horacle h'
          exact (txEvents_oracle_error_facts env cache'' wallet h' msg ha).2.2.1
            h b hin''
  · intro h b hmem
    rcases tick_chain_events_eq env items cursor0 with hnil | ⟨fuel, start, heq⟩
    · rw [hnil] at hmem
      simp at hmem
    · rw [heq] at hmem
      obtain ⟨k, cache', _, hin, _⟩ :=
        runBlocks_mem env (watchedLookup items) fuel start [] _ hmem
      rcases processBlock_mem env (watchedLookup items) cache' (start + k) _ hin
        with habs | hin'
      · simp at habs
      · obtain ⟨tx, _, cache'', hin'', _⟩ :=
          processTxs_mem env (watchedLookup items) (start + k) _ cache' _ hin'
        cases hc : classifyTx env (watchedLookup items) (start + k) tx with
        | skip => rw [hc] at hin''; simp [txEvents] at hin''
        | skipNoted h' => rw [hc] at hin''; simp [txEvents] at hin''
        | halt h' => rw [hc] at hin''; simp [txEvents] at hin''
        | auditTx wallet h' =>
          rw [hc] at hin''
          obtain ⟨msg, ha⟩ := horacle h'
          exact ((txEvents_oracle_error_facts env cache'' wallet h' msg ha).2.2.2
            h b hin'').2
  · intro h hmem
    rcases tick_chain_events_eq env items cursor0 with hnil | ⟨fuel, start, heq⟩
    · rw [hnil] at hmem
      simp at hmem
    · rw [heq] at hmem ⊢
      obtain ⟨k, cache', _, hin, hsubB⟩ :=
        runBlocks_mem env (watchedLookup items) fuel start [] _ hmem
      rcases processBlock_mem env (watchedLookup items) cache' (start + k) _ hin
        with habs | hin'
      · simp at habs
      · obtain ⟨tx, _, cache'', hin'', hsubT⟩ :=
          processTxs_mem env (watchedLookup items) (start + k) _ cache' _ hin'
        cases hc : classifyTx env (watchedLookup items) (start + k) tx with
        | skip => rw [hc] at hin''; simp [txEvents] at hin''
        | skipNoted h' => rw [hc] at hin''; simp [txEvents] at hin''
        | halt h' => rw [hc] at hin''; simp [txEvents] at hin''
        | auditTx wallet h' =>
          rw [hc] at hin'' hsubT
          obtain ⟨msg, ha⟩ := horacle h'
          obtain ⟨hfz, _, _, horc⟩ :=
            txEvents_oracle_error_facts env cache'' wallet h' msg ha
          obtain ⟨hh, _⟩ := horc h true hin''
          subst hh
          exact hsubB _ (List.mem_cons_of_mem _ (hsubT _ hfz))

/-- Witness for C2 (amended) at the concrete oracle-outage environment. -/
theorem tick_oracle_failure_fail_closed_witness :
    (∀ h : String, envC2.receipt h = some ())
    ∧ (∀ h : String, ∃ msg, envC2.audit h = .error msg)
    ∧ ((∀ (w : String → Option Int) (bn : Int), blockComplete envC2 w bn = true)
       ∧ (∀ h b, Ev.setNoteWrite h b ∉ (tick_chain envC2 itemsC2 (some 0)).events)
       ∧ (∀ h b, Ev.oracleCall h b ∈ (tick_chain envC2 itemsC2 (some 0)).events →
           b = true)
       ∧ (∀ h, Ev.oracleCall h true ∈ (tick_chain envC2 itemsC2 (some 0)).events →
           Ev.freezeWrite h (envC2.freezeOk h)
             ∈ (tick_chain envC2 itemsC2 (some 0)).events)) :=
  ⟨fun _ => rfl, fun _ => ⟨"oracle down", rfl⟩,
   tick_oracle_failure_fail_closed envC2 itemsC2 (some 0) (fun _ => rfl)
     (fun _ => ⟨"oracle down", rfl⟩)⟩

/-- C10 counterexample: a parseable verdict whose label is the empty
string is defaulted to "UNSAFE" by `label or "UNSAFE"` and therefore
freezes the wallet — set-note is not called. -/
theorem tick_empty_label_freezes :
    envC10.audit "0xh7" = .ok ⟨some ""⟩
    ∧ Ev.freezeWrite "0xh7" true ∈ (tick_chain envC10 itemsC10 (some 0)).events
    ∧ (∀ b, Ev.setNoteWrite "0xh7" b ∉ (tick_chain envC10 itemsC10 (some 0)).events) :=
  ⟨rfl, by decide, by decide⟩

/-- C10 amended: the worker freezes iff the uppercased
`label or "UNSAFE"` equals "UNSAFE"; an empty or missing label therefore
defaults to UNSAFE and freezes, while a non-empty label whose uppercase is
not "UNSAFE" gets set-note; and the orchestrator's label mapping records
any label other than "SAFE" (after uppercasing) as Unsafe (2). -/
theorem worker_freeze_decision (env : ChainEnv) (cache : List String)
    (wallet h : String) (v : Verdict) (ha : env.audit h = .ok v) :
    (pyUpper (pyOrStr v.label "UNSAFE") = "UNSAFE" →
      Ev.freezeWrite h (env.freezeOk h) ∈ (txEvents env cache (.auditTx wallet h)).1
      ∧ ∀ b, Ev.setNoteWrite h b ∉ (txEvents env cache (.auditTx wallet h)).1)
    ∧ (pyUpper (pyOrStr v.label "UNSAFE") ≠ "UNSAFE" →
      Ev.setNoteWrite h (env.setNoteOk h) ∈ (txEvents env cache (.auditTx wallet h)).1
      ∧ ∀ b, Ev.freezeWrite h b ∉ (txEvents env cache (.auditTx wallet h)).1)
    ∧ ((v.label = none ∨ v.label = some "") →
      pyUpper (pyOrStr v.label "UNSAFE") = "UNSAFE")
    ∧ (∀ s : String, pyUpper s ≠ "SAFE" → _verdict_from_label s = 2) := by
  refine ⟨?_, ?_, ?_, ?_⟩
  · intro hl
    by_cases hcc : pyLower wallet ∈ cache <;>
      exact ⟨by simp [txEvents, ha, hcc, hl], fun b => by simp [txEvents, ha, hcc, hl]⟩
  · intro hl
    by_cases hcc : pyLower wallet ∈ cache <;>
      exact ⟨by simp [txEvents, ha, hcc, hl], fun b => by simp [txEvents, ha, hcc, hl]⟩
  · rintro (hl | hl) <;> rw [hl] <;> decide
  · intro s hs
    simp [_verdict_from_label, hs]

/-- Witness for C10 (amended): the empty label freezes, the orchestrator
maps an unrecognized label to Unsafe, and a non-empty non-UNSAFE label
gets set-note. -/
theorem worker_freeze_decision_witness :
    envC10.audit "0xh7" = .ok ⟨some ""⟩
    ∧ pyUpper (pyOrStr (some "") "UNSAFE") = "UNSAFE"
    ∧ Ev.freezeWrite "0xh7" (envC10.freezeOk "0xh7")
        ∈ (txEvents envC10 [] (.auditTx "0xff" "0xh7")).1
    ∧ Ev.setNoteWrite "0xh8" (envC10b.setNoteOk "0xh8")
        ∈ (txEvents envC10b [] (.auditTx "0xff" "0xh8")).1
    ∧ _verdict_from_label "MALFORMED" = 2 := by
  refine ⟨rfl, by decide, ?_, ?_, ?_⟩
  · exact ((worker_freeze_decision envC10 [] "0xff" "0xh7" ⟨some ""⟩ rfl).1
      (by decide)).1
  · exact ((worker_freeze_decision envC10b [] "0xff" "0xh8" ⟨some "Malformed"⟩ rfl).2.1
      (by decide)).1
  · exact (worker_freeze_decision envC10 [] "0xff" "0xh7" ⟨some ""⟩ rfl).2.2.2
      "MALFORMED" (by decide)

/-- C9 counterexample: a malformed (unparseable) watchlist or cursor
document makes the load raise, not return the empty default. -/
theorem load_state_malformed_raises :
    load_watchlist .malformed = .error ()
    ∧ load_cursors .malformed = .error () :=
  ⟨rfl, rfl⟩

/-- C9 amended: a missing file is treated as absent and loads as the empty
default, and a well-formed document whose top level is not a JSON object
also loads as empty — but malformed JSON content raises
(`json.JSONDecodeError` propagates out of `_load_json`) instead of being
treated as absent. -/
theorem load_state_corruption_behavior :
    load_watchlist .missing = .ok []
    ∧ load_cursors .missing = .ok []
    ∧ load_watchlist .malformed = .error ()
    ∧ load_cursors .malformed = .error ()
    ∧ (∀ j : Json, (∀ kvs, j ≠ .obj kvs) →
        load_watchlist (.wellFormed j) = .ok []
        ∧ load_cursors (.wellFormed j) = .ok []) := by
  refine ⟨rfl, rfl, rfl, rfl, ?_⟩
  intro j hj
  cases j with
  | null => exact ⟨rfl, rfl⟩
  | bool b => exact ⟨rfl, rfl⟩
  | num n => exact ⟨rfl, rfl⟩
  | str s => exact ⟨rfl, rfl⟩
  | arr xs => exact ⟨rfl, rfl⟩
  | obj kvs => exact absurd rfl (hj kvs)

/-- Witness for C9 (amended) at a concrete non-object document. -/
theorem load_state_corruption_behavior_witness :
    ((∀ kvs, Json.str "oops" ≠ Json.obj kvs)
      ∧ load_watchlist (.wellFormed (.str "oops")) = .ok []
      ∧ load_cursors (.wellFormed (.str "oops")) = .ok [])
    ∧ load_watchlist .missing = .ok [] :=
  ⟨⟨fun kvs => by simp, (load_state_corruption_behavior.2.2.2.2 (.str "oops")
      (fun kvs => by simp)).1, (load_state_corruption_behavior.2.2.2.2 (.str "oops")
      (fun kvs => by simp)).2⟩,
   load_state_corruption_behavior.1⟩
